import Mathlib

/-!
Verification of the hillslope linear-diffusion module
(`pyBadlands/hillslope/diffLinear.py`) of the Badlands landscape-evolution
code.

Real numbers of the source are embedded as rationals (`ℚ`); the numeric
literal `0.05` of the source is the exact rational `1/20`.  Division by zero,
which in numpy silently produces an IEEE infinity (with only a runtime
warning), is made explicit through the value type `NumVal` below.  Python
exceptions (numpy's `ValueError` on an empty reduction, `IndexError` on
out-of-range fancy indexing) are embedded as `Except.error` with the
exception name as payload.  Methods of the class `diffLinear` are embedded as
state transformers on the record of its attributes; a Python method without a
`return` statement returns the value `None`, embedded as `Option.none`.

The embedding is single-process: `MPI.COMM_WORLD` has size 1, so the
`Allreduce` with `MPI.MIN` is the identity on the single local contribution.
The collective reduction itself, over an arbitrary group of per-process local
candidates, is modelled separately by `allreduceMin`.
-/

/-- Result of a numpy floating-point division: a finite value, or one of the
IEEE specials that numpy produces (with a warning, not an exception) when the
divisor is zero. -/
inductive NumVal where
  | fin (q : ℚ)
  | inf
  | ninf
  | nan
deriving DecidableEq

/-- Division as numpy performs it on float64 scalars: a zero divisor yields
`inf`, `-inf` or `nan` according to the sign of the dividend, never an
exception. -/
def npDiv (a b : ℚ) : NumVal :=
  if b = 0 then
    (if 0 < a then NumVal.inf else if a < 0 then NumVal.ninf else NumVal.nan)
  else NumVal.fin (a / b)

/-- Attributes of a configured `diffLinear` instance.  `__init__` sets all
three attributes to `None`; the claims under study concern instances whose
diffusion coefficients have been configured, so `CDaerial` and `CDmarine` are
plain rationals, while `CFL` keeps its possibly-unset state as an `Option`. -/
structure diffLinear where
  CDaerial : ℚ
  CDmarine : ℚ
  CFL : Option NumVal
deriving DecidableEq

/-- The per-partition stability candidate of `dt_pstability` (source lines
56-61): `maxCD = max(self.CDaerial, self.CDmarine)`; keep the strictly
positive edge lengths (`numpy.where(edgedist > 0.)`); square them and take
`numpy.amin`, which raises `ValueError` on an empty selection; finally
`0.05 * amin(...) / maxCD`. -/
def localCandidate (CDaerial CDmarine : ℚ) (edgelen : List ℚ) : Except String NumVal :=
  let maxCD := max CDaerial CDmarine
  match ((edgelen.filter fun d => 0 < d).map fun d => d * d).min? with
  | none => Except.error "ValueError"
  | some m => Except.ok (npDiv ((1 / 20) * m) maxCD)

/-- `dt_pstability`: computes the local candidate, reduces it with
`MPI.Allreduce(..., op=MPI.MIN)` over `MPI.COMM_WORLD` (of size 1 here, so
the reduction is the identity), stores the result in `self.CFL`, and falls
off the end of the method body, returning Python `None`. -/
def diffLinear.dt_pstability (s : diffLinear) (edgelen : List ℚ) :
    Except String (diffLinear × Option NumVal) :=
  match localCandidate s.CDaerial s.CDmarine edgelen with
  | Except.error e => Except.error e
  | Except.ok c => Except.ok ({ s with CFL := some c }, none)

/-- Modelled from the spec: the Fortran kernel `FLOWalgo.flowcompute.diffcfl`
called by `dt_fstability` is not part of this repository's sources.  The spec
states it has "the same contract" as the geometric path: the local candidate
is `0.05 * min(positive edge lengths squared) / maxCD`, failing when no edge
length is strictly positive. -/
def diffcfl (edgelen : List ℚ) (maxCD : ℚ) : Except String NumVal :=
  match ((edgelen.filter fun d => 0 < d).map fun d => d * d).min? with
  | none => Except.error "ValueError"
  | some m => Except.ok (npDiv ((1 / 20) * m) maxCD)

/-- `dt_fstability`: delegates the local candidate to the native kernel, then
performs the same size-1 `Allreduce` with `MPI.MIN`, stores `self.CFL`, and
returns Python `None`. -/
def diffLinear.dt_fstability (s : diffLinear) (edgelen : List ℚ) :
    Except String (diffLinear × Option NumVal) :=
  match diffcfl edgelen (max s.CDaerial s.CDmarine) with
  | Except.error e => Except.error e
  | Except.ok dt => Except.ok ({ s with CFL := some dt }, none)

/-- The collective `Allreduce(..., op=MPI.MIN)`: every participating process
contributes its local candidate and all receive the minimum of the
contributions (`none` for an empty process group, which MPI excludes). -/
def allreduceMin (vals : List ℚ) : Option ℚ := vals.min?

/-- `sedflux` (source lines 123-133).  `flux = numpy.zeros(len(elevation))`;
`tmpIDs = numpy.where(area > 0)`; `flux[tmpIDs] = diff_flux[tmpIDs] /
area[tmpIDs]`, which raises `IndexError` when some index of `tmpIDs` is out
of range of `diff_flux` or of `flux`; then the entries at `elevation >= sea`
are multiplied by `self.CDaerial` and the entries at `elevation < sea` by
`self.CDmarine`; `flux` is returned.  The result tuple carries, in order, the
returned `flux`, the object state and the three input arrays as they stand at
return (the body assigns only to `flux`). -/
def diffLinear.sedflux (s : diffLinear) (diff_flux : List ℚ) (sea : ℚ)
    (elevation : List ℚ) (area : List ℚ) :
    Except String (List ℚ × diffLinear × List ℚ × List ℚ × List ℚ) :=
  if (List.range area.length).any (fun i =>
      decide (0 < area.getD i 0) &&
        (decide (diff_flux.length ≤ i) || decide (elevation.length ≤ i))) then
    Except.error "IndexError"
  else
    let raw : ℕ → ℚ := fun i =>
      if 0 < area.getD i 0 then diff_flux.getD i 0 / area.getD i 0 else 0
    let dry : ℕ → ℚ := fun i =>
      if sea ≤ elevation.getD i 0 then raw i * s.CDaerial else raw i
    let wet : ℕ → ℚ := fun i =>
      if elevation.getD i 0 < sea then dry i * s.CDmarine else dry i
    Except.ok ((List.range elevation.length).map wet, s, diff_flux, elevation, area)

instance : Std.Antisymm (fun a b : ℚ => a ≤ b) :=
  ⟨fun h h' => le_antisymm h h'⟩

instance {ε α : Type} [DecidableEq ε] [DecidableEq α] :
    DecidableEq (Except ε α) := fun x y =>
  match x, y with
  | Except.error e, Except.error f =>
    if h : e = f then Decidable.isTrue (h ▸ rfl)
    else Decidable.isFalse (fun hh => h (Except.error.inj hh))
  | Except.error _, Except.ok _ => Decidable.isFalse (fun hh => Except.noConfusion hh)
  | Except.ok _, Except.error _ => Decidable.isFalse (fun hh => Except.noConfusion hh)
  | Except.ok a, Except.ok b =>
    if h : a = b then Decidable.isTrue (h ▸ rfl)
    else Decidable.isFalse (fun hh => h (Except.ok.inj hh))

theorem min?_eq_some_iff_q {l : List ℚ} {a : ℚ} :
    l.min? = some a ↔ a ∈ l ∧ ∀ b ∈ l, a ≤ b :=
  List.min?_eq_some_iff (fun a => le_refl a) (fun a b => min_choice a b)
    (fun _ _ _ => le_min_iff)

theorem qmin_perm {l1 l2 : List ℚ} (h : l1.Perm l2) : l1.min? = l2.min? := by
  cases h2 : l2.min? with
  | none =>
    rw [List.min?_eq_none_iff] at h2 ⊢
    exact List.Perm.eq_nil (h2 ▸ h)
  | some a =>
    rw [min?_eq_some_iff_q] at h2 ⊢
    exact ⟨h.mem_iff.mpr h2.1, fun b hb => h2.2 b (h.subset hb)⟩

theorem localCandidate_perm (a m : ℚ) {l1 l2 : List ℚ} (h : l1.Perm l2) :
    localCandidate a m l1 = localCandidate a m l2 := by
  unfold localCandidate
  rw [qmin_perm ((h.filter _).map _)]

theorem getD_map_range (f : ℕ → ℚ) {n i : ℕ} (hi : i < n) :
    ((List.range n).map f).getD i 0 = f i := by
  rw [List.getD_eq_getElem?_getD]
  simp [List.getElem?_map, List.getElem?_range hi]

theorem sedflux_ok (s : diffLinear) (df : List ℚ) (sea : ℚ) (elev ar : List ℚ)
    (h : ∀ i, i < ar.length → 0 < ar.getD i 0 → i < df.length ∧ i < elev.length) :
    s.sedflux df sea elev ar =
      Except.ok ((List.range elev.length).map (fun i =>
        (if 0 < ar.getD i 0 then df.getD i 0 / ar.getD i 0 else 0) *
          (if sea ≤ elev.getD i 0 then s.CDaerial else s.CDmarine)),
        s, df, elev, ar) := by
  unfold diffLinear.sedflux
  rw [if_neg]
  · refine congrArg Except.ok ?_
    refine congrArg (fun l => (l, s, df, elev, ar)) ?_
    refine List.map_congr_left (fun i _ => ?_)
    by_cases hle : sea ≤ elev.getD i 0
    · simp only [if_neg (not_lt.mpr hle), if_pos hle]
    · simp only [if_pos (not_le.mp hle), if_neg hle]
  · intro hany
    rw [List.any_eq_true] at hany
    obtain ⟨i, hir, hi⟩ := hany
    rw [List.mem_range] at hir
    rw [Bool.and_eq_true, Bool.or_eq_true] at hi
    obtain ⟨h1, h2⟩ := hi
    rw [decide_eq_true_eq] at h1
    obtain ⟨hd, he⟩ := h i hir h1
    rcases h2 with h2 | h2 <;> rw [decide_eq_true_eq] at h2 <;> omega

theorem sedflux_ok_elim (s : diffLinear) (df : List ℚ) (sea : ℚ) (elev ar : List ℚ)
    (out : List ℚ × diffLinear × List ℚ × List ℚ × List ℚ)
    (h : s.sedflux df sea elev ar = Except.ok out) :
    out.1.length = elev.length ∧ out.2.1 = s ∧ out.2.2.1 = df ∧
      out.2.2.2.1 = elev ∧ out.2.2.2.2 = ar := by
  unfold diffLinear.sedflux at h
  split at h
  · exact Except.noConfusion h
  · rw [← Except.ok.inj h]
    simp

theorem dt_pstability_ok_elim (s : diffLinear) (edgelen : List ℚ)
    (p : diffLinear × Option NumVal) (h : s.dt_pstability edgelen = Except.ok p) :
    ∃ c, localCandidate s.CDaerial s.CDmarine edgelen = Except.ok c ∧
      p = ({ s with CFL := some c }, none) := by
  unfold diffLinear.dt_pstability at h
  cases hc : localCandidate s.CDaerial s.CDmarine edgelen with
  | error e => rw [hc] at h; exact Except.noConfusion h
  | ok c => rw [hc] at h; exact ⟨c, rfl, (Except.ok.inj h).symm⟩

theorem dt_fstability_ok_elim (s : diffLinear) (edgelen : List ℚ)
    (p : diffLinear × Option NumVal) (h : s.dt_fstability edgelen = Except.ok p) :
    ∃ c, diffcfl edgelen (max s.CDaerial s.CDmarine) = Except.ok c ∧
      p = ({ s with CFL := some c }, none) := by
  unfold diffLinear.dt_fstability at h
  cases hc : diffcfl edgelen (max s.CDaerial s.CDmarine) with
  | error e => rw [hc] at h; exact Except.noConfusion h
  | ok c => rw [hc] at h; exact ⟨c, rfl, (Except.ok.inj h).symm⟩

/-- Claim C1: for equal-length inputs, each entry of the flux returned by
`sedflux` equals `(fluxAccumulator[i] / voronoiArea[i]` if `voronoiArea[i] >
0`, else `0)` multiplied by the aerial coefficient when `elevation[i] >=
seaLevel` and by the marine coefficient otherwise; in particular a node of
zero voronoi area yields zero flux. -/
theorem C1_sedflux_per_node (s : diffLinear) (df : List ℚ) (sea : ℚ)
    (elev ar : List ℚ) (hd : df.length = elev.length) (ha : ar.length = elev.length)
    (i : ℕ) (hi : i < elev.length) :
    ∃ flux : List ℚ,
      s.sedflux df sea elev ar = Except.ok (flux, s, df, elev, ar) ∧
      flux.getD i 0 =
        (if 0 < ar.getD i 0 then df.getD i 0 / ar.getD i 0 else 0) *
          (if sea ≤ elev.getD i 0 then s.CDaerial else s.CDmarine) ∧
      (ar.getD i 0 = 0 → flux.getD i 0 = 0) := by
  have hok := sedflux_ok s df sea elev ar (fun j hj hpos => ⟨by omega, by omega⟩)
  refine ⟨_, hok, getD_map_range _ hi, ?_⟩
  intro h0
  rw [getD_map_range _ hi, if_neg (by rw [h0]; exact lt_irrefl 0), zero_mul]

/-- Claim C1 witness: the spec's wet/dry example, node 0 of
`elevation = [5, -2]`, `seaLevel = 0`, `voronoiArea = [2, 2]`,
`fluxAccumulator = [10, 10]`, aerial `0.1`, marine `0.5` gives flux
`5 * 0.1 = 0.5`. -/
theorem C1_witness :
    ∃ flux : List ℚ,
      (diffLinear.mk (1/10) (1/2) none).sedflux [10, 10] 0 [5, -2] [2, 2] =
        Except.ok (flux, diffLinear.mk (1/10) (1/2) none, [10, 10], [5, -2], [2, 2]) ∧
      flux.getD 0 0 = 1/2 := by
  obtain ⟨flux, h1, h2, h3⟩ := C1_sedflux_per_node (diffLinear.mk (1/10) (1/2) none)
    [10, 10] 0 [5, -2] [2, 2] rfl rfl 0 (by norm_num)
  refine ⟨flux, h1, ?_⟩
  rw [h2]
  norm_num

/-- Claim C2: the local stability candidate of `dt_pstability` is `0.05`
times the minimum of the squares of the strictly positive edge lengths,
divided by `max(CDaerial, CDmarine)`; zero and negative entries are excluded
from the minimum. -/
theorem C2_local_candidate (CDa CDm : ℚ) (edgelen : List ℚ) (m : ℚ)
    (hmax : 0 < max CDa CDm) (hm : m ∈ edgelen) (hmpos : 0 < m)
    (hmin : ∀ x ∈ edgelen, 0 < x → m * m ≤ x * x) :
    localCandidate CDa CDm edgelen =
      Except.ok (NumVal.fin ((1 / 20) * (m * m) / max CDa CDm)) := by
  have hmem : m * m ∈ (edgelen.filter fun d => 0 < d).map fun d => d * d :=
    List.mem_map.mpr ⟨m, List.mem_filter.mpr ⟨hm, by simpa using hmpos⟩, rfl⟩
  have hbound : ∀ b ∈ (edgelen.filter fun d => 0 < d).map fun d => d * d, m * m ≤ b := by
    intro b hb
    obtain ⟨x, hxf, rfl⟩ := List.mem_map.mp hb
    obtain ⟨hxl, hxp⟩ := List.mem_filter.mp hxf
    exact hmin x hxl (by simpa using hxp)
  have hsome : ((edgelen.filter fun d => 0 < d).map fun d => d * d).min? = some (m * m) :=
    min?_eq_some_iff_q.mpr ⟨hmem, hbound⟩
  simp only [localCandidate, hsome, npDiv]
  rw [if_neg (ne_of_gt hmax)]

/-- Claim C2 witness: the spec's exclusion example, edges `[0, 2, 3]` with
aerial `1` and marine `0`, gives local candidate `0.05 * 2^2 / 1 = 0.2`,
not `0`. -/
theorem C2_witness : localCandidate 1 0 [0, 2, 3] = Except.ok (NumVal.fin (1/5)) := by
  have h := C2_local_candidate 1 0 [0, 2, 3] 2 (by norm_num) (by norm_num)
    (by norm_num) (by intro x hx hpos; fin_cases hx <;> norm_num at hpos ⊢)
  rw [h, max_eq_left (by norm_num : (0:ℚ) ≤ 1)]
  norm_num

/-- Claim C3: on every edge-length input with at least one strictly positive
entry and the same configured coefficients, `dt_pstability` and
`dt_fstability` produce identical results (exact equality in this rational
embedding, hence within any relative tolerance). -/
theorem C3_paths_agree (s : diffLinear) (edgelen : List ℚ)
    (_h : ∃ d ∈ edgelen, 0 < d) :
    s.dt_pstability edgelen = s.dt_fstability edgelen := rfl

/-- Claim C3 witness: both stability paths agree on the edge list `[2]`. -/
theorem C3_witness :
    (diffLinear.mk 1 0 none).dt_pstability [2] =
      (diffLinear.mk 1 0 none).dt_fstability [2] :=
  C3_paths_agree (diffLinear.mk 1 0 none) [2] ⟨2, by simp, by norm_num⟩

/-- Claim C4 counterexample: with aerial `1`, marine `0` and edges `[2]`,
`dt_pstability` stores `CFL = 1/5` but the method returns Python `None`
(`Option.none`), which is not the stored timestep: the "returns that value to
the caller" half of the claim is false. -/
theorem C4_counterexample :
    (diffLinear.mk 1 0 none).dt_pstability [2] =
      Except.ok (diffLinear.mk 1 0 (some (NumVal.fin (1/5))), none) ∧
    (none : Option NumVal) ≠ some (NumVal.fin (1/5)) := by
  constructor
  · norm_num [diffLinear.dt_pstability, localCandidate, npDiv, List.filter_cons,
      List.min?_cons', max_def]
  · simp

/-- Claim C4 (amended): every stability call stores the resulting global
minimum (the single-process reduction of the local candidate) as the new
`CFL`, and returns `None`; the caller must read the `CFL` attribute. -/
theorem C4_stores_returns_none (s : diffLinear) (edgelen : List ℚ) (c : NumVal)
    (h : localCandidate s.CDaerial s.CDmarine edgelen = Except.ok c) :
    s.dt_pstability edgelen = Except.ok ({ s with CFL := some c }, (none : Option NumVal)) ∧
    s.dt_fstability edgelen = Except.ok ({ s with CFL := some c }, (none : Option NumVal)) := by
  have h2 : diffcfl edgelen (max s.CDaerial s.CDmarine) = Except.ok c := h
  constructor
  · unfold diffLinear.dt_pstability
    rw [h]
  · unfold diffLinear.dt_fstability
    rw [h2]

/-- Claim C4 witness: with aerial `1`, marine `0` and edges `[2]`, both
stability calls store `CFL = 1/5` and return `None`. -/
theorem C4_witness :
    (diffLinear.mk 1 0 none).dt_pstability [2] =
      Except.ok (diffLinear.mk 1 0 (some (NumVal.fin (1/5))), (none : Option NumVal)) ∧
    (diffLinear.mk 1 0 none).dt_fstability [2] =
      Except.ok (diffLinear.mk 1 0 (some (NumVal.fin (1/5))), (none : Option NumVal)) :=
  C4_stores_returns_none (diffLinear.mk 1 0 none) [2] (NumVal.fin (1/5))
    (by norm_num [localCandidate, npDiv, List.filter_cons, List.min?_cons', max_def])

/-- Claim C5 counterexample: `sedflux` with `fluxAccumulator = [10, 20]`
(length 2) but `elevation = [5]` and `area = [2]` (length 1) raises nothing:
it silently returns the truncated flux `[0.5]`, so no `ShapeMismatchError`
precondition check exists. -/
theorem C5_counterexample :
    (diffLinear.mk (1/10) (1/2) none).sedflux [10, 20] 0 [5] [2] =
      Except.ok ([1/2], diffLinear.mk (1/10) (1/2) none, [10, 20], [5], [2]) ∧
    ([10, 20] : List ℚ).length ≠ ([5] : List ℚ).length := by
  constructor
  · have hr : List.range 1 = [0] := rfl
    norm_num [diffLinear.sedflux, hr]
  · simp

/-- Claim C5 (amended): `sedflux` performs no length validation.  Whenever
every positive-area index is in range of both `fluxAccumulator` and
`elevation` the call succeeds — even for mismatched lengths — and returns a
flux sequence of `elevation`'s length, silently ignoring extra entries;
out-of-range positive-area indices instead surface as an `IndexError` during
the computation. -/
theorem C5_no_shape_check (s : diffLinear) (df : List ℚ) (sea : ℚ) (elev ar : List ℚ)
    (h : ∀ i, i < ar.length → 0 < ar.getD i 0 → i < df.length ∧ i < elev.length) :
    ∃ flux : List ℚ, s.sedflux df sea elev ar = Except.ok (flux, s, df, elev, ar) ∧
      flux.length = elev.length := by
  refine ⟨_, sedflux_ok s df sea elev ar h, ?_⟩
  rw [List.length_map, List.length_range]

/-- Claim C5 witness: the mismatched-length call (`fluxAccumulator` of length
2, `elevation` and `area` of length 1) succeeds and returns a flux of length
1. -/
theorem C5_witness :
    ∃ flux : List ℚ,
      (diffLinear.mk (1/10) (1/2) none).sedflux [10, 20] 0 [5] [2] =
        Except.ok (flux, diffLinear.mk (1/10) (1/2) none, [10, 20], [5], [2]) ∧
      flux.length = ([5] : List ℚ).length :=
  C5_no_shape_check (diffLinear.mk (1/10) (1/2) none) [10, 20] 0 [5] [2]
    (by intro i hi hpos; norm_num at hi ⊢; omega)

/-- Claim C6 counterexample: with both coefficients zero and edges `[2]`,
`dt_pstability` reports no `ConfigurationError`: it succeeds and silently
stores `+inf` (numpy division of a positive value by zero) as the
`StableTimestep`. -/
theorem C6_counterexample :
    (diffLinear.mk 0 0 none).dt_pstability [2] =
      Except.ok (diffLinear.mk 0 0 (some NumVal.inf), none) := by
  norm_num [diffLinear.dt_pstability, localCandidate, npDiv, List.filter_cons,
    List.min?_cons']

/-- Claim C6 (amended): when both diffusion coefficients are zero, a
stability call performs no configuration check; on any edge input with a
strictly positive entry it succeeds, silently storing `+inf` as the
`StableTimestep`. -/
theorem C6_zero_coefficients_inf (c : Option NumVal) (edgelen : List ℚ) (d : ℚ)
    (hd : d ∈ edgelen) (hdpos : 0 < d) :
    (diffLinear.mk 0 0 c).dt_pstability edgelen =
      Except.ok (diffLinear.mk 0 0 (some NumVal.inf), none) := by
  have hdf : d ∈ edgelen.filter fun x => 0 < x :=
    List.mem_filter.mpr ⟨hd, by simpa using hdpos⟩
  have hne : ((edgelen.filter fun x => 0 < x).map fun x => x * x) ≠ [] := by
    intro h0
    rw [List.map_eq_nil_iff] at h0
    rw [h0] at hdf
    exact List.not_mem_nil d hdf
  obtain ⟨m, hm⟩ : ∃ m, ((edgelen.filter fun x => 0 < x).map fun x => x * x).min? = some m := by
    cases hmm : ((edgelen.filter fun x => 0 < x).map fun x => x * x).min? with
    | none => exact absurd (List.min?_eq_none_iff.mp hmm) hne
    | some m => exact ⟨m, rfl⟩
  have hmmem := List.min?_mem (fun a b => min_choice a b) hm
  obtain ⟨x, hxf, hxm⟩ := List.mem_map.mp hmmem
  have hx : 0 < x := by simpa using (List.mem_filter.mp hxf).2
  have hmpos : 0 < m := by rw [← hxm]; exact mul_pos hx hx
  unfold diffLinear.dt_pstability localCandidate
  rw [hm]
  simp
  unfold npDiv
  rw [if_pos rfl, if_pos (mul_pos (by norm_num) hmpos)]

/-- Claim C6 witness: with both coefficients zero and edges `[3]`,
`dt_pstability` succeeds and stores `+inf`. -/
theorem C6_witness :
    (diffLinear.mk 0 0 none).dt_pstability [3] =
      Except.ok (diffLinear.mk 0 0 (some NumVal.inf), none) :=
  C6_zero_coefficients_inf none [3] 3 (by simp) (by norm_num)

/-- Claim C7: on an edge-length input with no strictly positive entry,
`dt_pstability` fails with a reportable error (numpy's `ValueError` on the
empty reduction, realizing the spec's `EmptyGeometryError`) instead of
returning a value. -/
theorem C7_empty_geometry_error (s : diffLinear) (edgelen : List ℚ)
    (h : ∀ d ∈ edgelen, d ≤ 0) :
    s.dt_pstability edgelen = Except.error "ValueError" := by
  have hf : (edgelen.filter fun d => 0 < d) = [] := by
    rw [List.filter_eq_nil_iff]
    intro a ha
    simpa using not_lt.mpr (h a ha)
  unfold diffLinear.dt_pstability localCandidate
  rw [hf]
  rfl

/-- Claim C7 witness: the all-non-positive edge list `[0, -1]` makes
`dt_pstability` fail with the `ValueError`. -/
theorem C7_witness :
    (diffLinear.mk 1 0 none).dt_pstability [0, -1] = Except.error "ValueError" :=
  C7_empty_geometry_error (diffLinear.mk 1 0 none) [0, -1]
    (by intro d hd; fin_cases hd <;> norm_num)

/-- Claim C8: `dt_pstability` is invariant under permutation of the
edge-length sequence, and the collective minimum (`allreduceMin`) is
invariant under reordering of the participating processes' local
candidates. -/
theorem C8_permutation_invariance (s : diffLinear) (l1 l2 : List ℚ) (hl : l1.Perm l2)
    (p1 p2 : List ℚ) (hp : p1.Perm p2) :
    s.dt_pstability l1 = s.dt_pstability l2 ∧ allreduceMin p1 = allreduceMin p2 := by
  constructor
  · unfold diffLinear.dt_pstability
    rw [localCandidate_perm s.CDaerial s.CDmarine hl]
  · exact qmin_perm hp

/-- Claim C8 witness: swapping the edge list `[2, 3]` and the spec's
two-process candidates `0.3` and `0.12` leaves the results unchanged. -/
theorem C8_witness :
    ((diffLinear.mk 1 (1/2) none).dt_pstability [2, 3] =
      (diffLinear.mk 1 (1/2) none).dt_pstability [3, 2]) ∧
    allreduceMin [3/10, 3/25] = allreduceMin [3/25, 3/10] :=
  C8_permutation_invariance (diffLinear.mk 1 (1/2) none) [2, 3] [3, 2]
    (List.Perm.swap 3 2 []) [3/10, 3/25] [3/25, 3/10]
    (List.Perm.swap (3/25) (3/10) [])

/-- Claim C9: a successful `sedflux` call returns a flux sequence of the same
length (and per-node ordering) as the node inputs and leaves the
`fluxAccumulator`, `elevation` and `voronoiArea` sequences exactly as they
were passed. -/
theorem C9_no_mutation (s : diffLinear) (df : List ℚ) (sea : ℚ) (elev ar : List ℚ)
    (out : List ℚ × diffLinear × List ℚ × List ℚ × List ℚ)
    (h : s.sedflux df sea elev ar = Except.ok out) :
    out.1.length = elev.length ∧ out.2.2.1 = df ∧ out.2.2.2.1 = elev ∧
      out.2.2.2.2 = ar := by
  obtain ⟨h1, _, h3, h4, h5⟩ := sedflux_ok_elim s df sea elev ar out h
  exact ⟨h1, h3, h4, h5⟩

/-- Claim C9 witness: the spec's wet/dry example returns a fresh flux of
length 2 and the three inputs unchanged. -/
theorem C9_witness :
    ([1/2, 5/2] : List ℚ).length = ([5, -2] : List ℚ).length ∧
    ([10, 10] : List ℚ) = [10, 10] ∧ ([5, -2] : List ℚ) = [5, -2] ∧
    ([2, 2] : List ℚ) = [2, 2] :=
  C9_no_mutation (diffLinear.mk (1/10) (1/2) none) [10, 10] 0 [5, -2] [2, 2]
    ([1/2, 5/2], diffLinear.mk (1/10) (1/2) none, [10, 10], [5, -2], [2, 2])
    (by have hr : List.range 2 = [0, 1] := rfl; norm_num [diffLinear.sedflux, hr])

/-- Claim C10: successful calls of `dt_pstability`, `dt_fstability` and
`sedflux` never modify `CDaerial` or `CDmarine`, and `sedflux` additionally
leaves the whole state — including the stored `CFL` — unchanged; only the two
stability operations overwrite `CFL`. -/
theorem C10_preserves_configuration (s : diffLinear) (edgelen df elev ar : List ℚ)
    (sea : ℚ) (p f : diffLinear × Option NumVal)
    (o : List ℚ × diffLinear × List ℚ × List ℚ × List ℚ)
    (hp : s.dt_pstability edgelen = Except.ok p)
    (hf : s.dt_fstability edgelen = Except.ok f)
    (ho : s.sedflux df sea elev ar = Except.ok o) :
    p.1.CDaerial = s.CDaerial ∧ p.1.CDmarine = s.CDmarine ∧
    f.1.CDaerial = s.CDaerial ∧ f.1.CDmarine = s.CDmarine ∧ o.2.1 = s := by
  obtain ⟨c1, -, rfl⟩ := dt_pstability_ok_elim s edgelen p hp
  obtain ⟨c2, -, rfl⟩ := dt_fstability_ok_elim s edgelen f hf
  obtain ⟨-, h2, -, -, -⟩ := sedflux_ok_elim s df sea elev ar o ho
  exact ⟨rfl, rfl, rfl, rfl, h2⟩

/-- Claim C10 witness: with aerial `0.1`, marine `0.5` and a previously
stored `CFL = 7`, the two stability calls keep the coefficients and `sedflux`
keeps the whole state. -/
theorem C10_witness :
    ((1:ℚ)/10 = 1/10) ∧ ((1:ℚ)/2 = 1/2) ∧ ((1:ℚ)/10 = 1/10) ∧ ((1:ℚ)/2 = 1/2) ∧
    diffLinear.mk (1/10) (1/2) (some (NumVal.fin 7)) =
      diffLinear.mk (1/10) (1/2) (some (NumVal.fin 7)) :=
  C10_preserves_configuration (diffLinear.mk (1/10) (1/2) (some (NumVal.fin 7)))
    [2] [10] [5] [2] 0
    (diffLinear.mk (1/10) (1/2) (some (NumVal.fin (2/5))), none)
    (diffLinear.mk (1/10) (1/2) (some (NumVal.fin (2/5))), none)
    ([1/2], diffLinear.mk (1/10) (1/2) (some (NumVal.fin 7)), [10], [5], [2])
    (by norm_num [diffLinear.dt_pstability, localCandidate, npDiv,
      List.filter_cons, List.min?_cons', max_def])
    (by norm_num [diffLinear.dt_fstability, diffcfl, npDiv,
      List.filter_cons, List.min?_cons', max_def])
    (by have hr : List.range 1 = [0] := rfl; norm_num [diffLinear.sedflux, hr])
